import Mathlib

/-!
Shallow embedding of the build-time content-sourcing routine
(src/gatsby/sourceNodes.ts): five external JSON feeds are fetched in a
fixed sequential order and normalized into typed content nodes.
JS values that may be absent are modelled with Option; the JS fetch
outcome of each feed is modelled with Except.
-/

namespace PosthogSourceNodes

/-- JS template literal interpolation of a possibly absent string value:
an absent (undefined) value renders as the text undefined. -/
def jsToString : Option String → String
  | none => "undefined"
  | some s => s

/-- JS String.replace with a plain string pattern, on character lists:
only the first occurrence of pat is replaced by rep; with no occurrence
the list is returned unchanged. -/
def replaceFirst (pat rep : List Char) : List Char → List Char
  | [] => if pat.isPrefixOf ([] : List Char) then rep else []
  | c :: rest =>
      if pat.isPrefixOf (c :: rest) then rep ++ (c :: rest).drop pat.length
      else c :: replaceFirst pat rep rest

/-- Substring test matching the occurrence notion of replaceFirst:
pat occurs somewhere in the list. -/
def containsPat (pat : List Char) : List Char → Bool
  | [] => pat.isPrefixOf ([] : List Char)
  | c :: rest => pat.isPrefixOf (c :: rest) || containsPat pat rest

/-- The canonical publisher domain stripped from integration URLs. -/
def phDomain : String := "https://posthog.com"

/-- The integration URL rewrite of sourceNodes.ts line 119:
url.replace removes the first occurrence of the canonical domain,
case-sensitively, wherever it appears. -/
def rewriteUrl (s : String) : String :=
  String.mk (replaceFirst phDomain.data [] s.data)

/-- String form of containsPat. -/
def strContains (pat s : String) : Bool :=
  containsPat pat.data s.data

/-- Raw GitHub user object as it appears inside issue and pull records. -/
structure UserRecord where
  login : Option String
  avatar_url : Option String
  html_url : Option String
  deriving DecidableEq, Repr

/-- The mapped author descriptor placed on issue and pull nodes. -/
structure UserFields where
  username : Option String
  avatar : Option String
  url : Option String
  deriving DecidableEq, Repr

/-- Raw record of the GitHub issues feed. -/
structure IssueRecord where
  html_url : Option String
  title : Option String
  number : Option Int
  user : Option UserRecord
  comments : Option Int
  deriving DecidableEq, Repr

/-- Raw record of the GitHub pulls feed. -/
structure PullRecord where
  html_url : Option String
  title : Option String
  number : Option Int
  user : Option UserRecord
  deriving DecidableEq, Repr

/-- Raw record of the integrations catalog; other models the rest-spread
of unknown catalog fields. -/
structure IntegrationRecord where
  name : Option String
  url : Option String
  other : List (String × String)
  deriving DecidableEq, Repr

/-- Raw record of the plugins catalog. -/
structure PluginRecord where
  displayOnWebsiteLib : Option Bool
  name : Option String
  other : List (String × String)
  deriving DecidableEq, Repr

/-- One operation descriptor inside an endpoint group of the API schema. -/
structure OperationItem where
  name : String
  verb : String
  operationSpec : String
  deriving DecidableEq, Repr

/-- Modelled from the spec: redoc MenuBuilder (external to this repository)
groups the API schema into named endpoint groups, each with its list of
operation descriptors; the last menu entry holds all grouped endpoints. -/
structure EndpointGroup where
  name : String
  items : List OperationItem
  deriving DecidableEq, Repr

/-- Parsed payload of the API schema feed: the grouped endpoints plus the
components blob. -/
structure SchemaPayload where
  groups : List EndpointGroup
  components : Option String
  deriving DecidableEq, Repr

/-- The data object built for an issue node (sourceNodes.ts lines 54-64). -/
structure IssueData where
  url : Option String
  title : Option String
  number : Option Int
  comments : Option Int
  user : UserFields
  deriving DecidableEq, Repr

/-- The data object built for a pull node (sourceNodes.ts lines 84-92). -/
structure PullData where
  url : Option String
  title : Option String
  number : Option Int
  user : UserFields
  deriving DecidableEq, Repr

/-- The argument handed to createContentDigest per node type. -/
inductive DigestInput where
  | issue (d : IssueData)
  | pull (d : PullData)
  | integration (r : IntegrationRecord)
  | plugin (r : PluginRecord)
  | endpointItems (items : List OperationItem)
  | components (c : Option String)
  deriving DecidableEq, Repr

/-- Modelled from the spec: Gatsby createContentDigest (an external
collaborator, not part of this repository) is a deterministic content
hash of its argument; it is modelled as the canonical serialization of
the argument, i.e. the argument itself, which is deterministic and
injective. -/
def createContentDigest (d : DigestInput) : DigestInput := d

/-- Modelled from the spec: Gatsby createNodeId (an external collaborator,
not part of this repository) derives a stable identifier deterministically
from the given seed string; it is modelled as the seed string itself,
which is deterministic and injective. -/
def createNodeId (s : String) : String := s

/-- Field set of a node, by node variant. -/
inductive NodeFields where
  | issue (d : IssueData)
  | pull (d : PullData)
  | integration (url : String) (name : Option String) (other : List (String × String))
  | plugin (name : Option String) (other : List (String × String))
  | endpointGroup (items : List OperationItem) (url : String) (name : String)
  | apiComponents (components : Option String)
  deriving DecidableEq, Repr

/-- A content node handed to createNode. The type and contentDigest
components are the entries of the internal object of the node literal;
for integration and plugin nodes the rest-spread of unknown catalog
fields comes last in the literal, so an extra internal key overrides the
internal object with a raw value, and then no type tag and no digest
remain (the overriding raw value is the internal entry of the other list
carried in fields). -/
structure Node where
  id : String
  type : Option String
  contentDigest : Option DigestInput
  fields : NodeFields
  deriving DecidableEq, Repr

/-- First value bound to key k in a JS object modelled as an association
list; catalog records parsed from JSON carry each key at most once. -/
def jsLookup (k : String) : List (String × String) → Option String
  | [] => none
  | (k2, v) :: rest => if k2 == k then some v else jsLookup k rest

/-- Type tag of a node whose literal spreads the unknown extras last: an
extra internal key overrides the whole internal object, leaving no type
tag. -/
def internalType (tag : String) (other : List (String × String)) : Option String :=
  match jsLookup ("internal") other with
  | some _ => none
  | none => some tag

/-- Digest of such a node: an extra internal key overrides the whole
internal object, leaving no digest. -/
def internalDigest (d : DigestInput) (other : List (String × String)) : Option DigestInput :=
  match jsLookup ("internal") other with
  | some _ => none
  | none => some (createContentDigest d)

/-- Optional chaining user?.field for the three author fields. -/
def userFields (u : Option UserRecord) : UserFields where
  username := u.bind (fun x => x.login)
  avatar := u.bind (fun x => x.avatar_url)
  url := u.bind (fun x => x.html_url)

/-- The data object of an issue node. -/
def issueData (r : IssueRecord) : IssueData where
  url := r.html_url
  title := r.title
  number := r.number
  comments := r.comments
  user := userFields r.user

/-- Normalizer of one issue record (sourceNodes.ts lines 52-76): one node
per record, unconditionally. -/
def normalizeIssue (r : IssueRecord) : Node where
  id := createNodeId ("posthog-issue-" ++ jsToString r.title)
  type := some ("PostHogIssue")
  contentDigest := some (createContentDigest (DigestInput.issue (issueData r)))
  fields := NodeFields.issue (issueData r)

/-- Nodes emitted by the issues feed for a fetched payload. -/
def issueFeedNodes (l : List IssueRecord) : List Node :=
  l.map normalizeIssue

/-- The data object of a pull node. -/
def pullData (r : PullRecord) : PullData where
  url := r.html_url
  title := r.title
  number := r.number
  user := userFields r.user

/-- Normalizer of one pull record (sourceNodes.ts lines 80-104): one node
per record, unconditionally. -/
def normalizePull (r : PullRecord) : Node where
  id := createNodeId ("posthog-pull-" ++ jsToString r.title)
  type := some ("PostHogPull")
  contentDigest := some (createContentDigest (DigestInput.pull (pullData r)))
  fields := NodeFields.pull (pullData r)

/-- Nodes emitted by the pulls feed for a fetched payload. -/
def pullFeedNodes (l : List PullRecord) : List Node :=
  l.map normalizePull

/-- Identifier seed of an integration node, a function of the name only. -/
def integrationId (r : IntegrationRecord) : String :=
  createNodeId ("integration-" ++ jsToString r.name)

/-- Identifier of an integration node: the rest-spread comes last in the
node literal, so a catalog record carrying an id extra key overrides the
derived identifier with that value. -/
def integrationNodeId (r : IntegrationRecord) : String :=
  match jsLookup ("id") r.other with
  | some v => v
  | none => integrationId r

/-- Normalizer of one integration record (sourceNodes.ts lines 109-124):
url.replace on an absent url throws a TypeError, modelled as none; the
digest is taken over the whole raw record, before the URL rewrite; the
trailing rest-spread lets id and internal extra keys override the
computed identifier and internal object. -/
def normalizeIntegration (r : IntegrationRecord) : Option Node :=
  match r.url with
  | none => none
  | some u => some
      { id := integrationNodeId r
        type := internalType ("Integration") r.other
        contentDigest := internalDigest (DigestInput.integration r) r.other
        fields := NodeFields.integration (rewriteUrl u) r.name r.other }

/-- forEach over the integrations payload: nodes already created before a
record with an absent url are kept, and the thrown TypeError aborts the
rest of the pass (second component true). -/
def integrationFeedNodes : List IntegrationRecord → List Node × Bool
  | [] => ([], false)
  | r :: rest =>
      match normalizeIntegration r with
      | none => ([], true)
      | some n => (n :: (integrationFeedNodes rest).1, (integrationFeedNodes rest).2)

/-- Identifier seed of a plugin node, a function of the name only. -/
def pluginId (q : PluginRecord) : String :=
  createNodeId ("plugin-" ++ jsToString q.name)

/-- Identifier of a plugin node: the rest-spread comes last in the node
literal, so a catalog record carrying an id extra key overrides the
derived identifier with that value. -/
def pluginNodeId (q : PluginRecord) : String :=
  match jsLookup ("id") q.other with
  | some v => v
  | none => pluginId q

/-- Normalizer of one displayed plugin record (sourceNodes.ts lines
129-145); the digest is taken over the whole raw record; the trailing
rest-spread lets id and internal extra keys override the computed
identifier and internal object. -/
def normalizePlugin (q : PluginRecord) : Node where
  id := pluginNodeId q
  type := internalType ("Plugin") q.other
  contentDigest := internalDigest (DigestInput.plugin q) q.other
  fields := NodeFields.plugin q.name q.other

/-- Nodes emitted by the plugins feed: only records whose display flag is
truthy (a present true) produce a node. -/
def pluginFeedNodes (l : List PluginRecord) : List Node :=
  (l.filter (fun q => q.displayOnWebsiteLib == some true)).map normalizePlugin

/-- Normalizer of one endpoint group (sourceNodes.ts lines 19-35): note
the URL path replaces only the first underscore of the group name. -/
def normalizeEndpointGroup (g : EndpointGroup) : Node where
  id := createNodeId ("api_endpoint-" ++ g.name)
  type := some ("api_endpoint")
  contentDigest := some (createContentDigest (DigestInput.endpointItems g.items))
  fields := NodeFields.endpointGroup g.items
    ("/docs/api/" ++ String.mk (replaceFirst [Char.ofNat 95] [Char.ofNat 45] g.name.data))
    g.name

/-- Nodes emitted by the schema feed: one per endpoint group, plus the
single ApiComponents node (sourceNodes.ts lines 36-46). -/
def schemaNodes (p : SchemaPayload) : List Node :=
  p.groups.map normalizeEndpointGroup ++
    [ { id := createNodeId ("api_endpoint-components")
        type := some ("ApiComponents")
        contentDigest := some (createContentDigest (DigestInput.components p.components))
        fields := NodeFields.apiComponents p.components } ]

/-- The five external feeds, in the fixed order the source awaits them. -/
inductive Feed where
  | schema
  | issues
  | pulls
  | integrations
  | plugins
  deriving DecidableEq, Repr

/-- Fetch outcome of each feed: error models a rejected request or a
malformed payload whose traversal throws. -/
structure FeedResults where
  schema : Except Unit SchemaPayload
  issues : Except Unit (List IssueRecord)
  pulls : Except Unit (List PullRecord)
  integrations : Except Unit (List IntegrationRecord)
  plugins : Except Unit (List PluginRecord)

/-- Outcome of the whole sourcing pass: which feeds were requested, the
nodes created (in creation order), and whether the pass ended in an
unhandled rejection. -/
structure SourceResult where
  requested : List Feed
  nodes : List Node
  errored : Bool
  deriving DecidableEq, Repr

/-- JS truthiness of process.env.POSTHOG_APP_API_KEY: an absent variable
and the empty string are both falsy. -/
def keyPresent : Option String → Bool
  | none => false
  | some k => k != ""

/-- Outcome of one feed once its fetch result is known: a rejected fetch
emits nothing and aborts; an ok payload is handed to the normalizer, which
may itself emit some nodes and then abort (integrations). -/
def feedOutcome {α : Type} (res : Except Unit α) (f : α → List Node × Bool) :
    List Node × Bool :=
  match res with
  | Except.error _ => ([], true)
  | Except.ok a => f a

/-- Sequential await semantics: once the pass has errored, later feeds are
neither requested nor normalized; otherwise the feed is requested, its
nodes are appended, and its abort flag is recorded. -/
def runStep (acc : SourceResult) (f : Feed) (out : List Node × Bool) : SourceResult :=
  if acc.errored then acc
  else
    { requested := acc.requested ++ [f]
      nodes := acc.nodes ++ out.1
      errored := out.2 }

/-- The sourcing pass of sourceNodes.ts: the schema feed is gated on the
credential, then issues, pulls, integrations and plugins are awaited in
order. -/
def sourceNodes (apiKey : Option String) (rs : FeedResults) : SourceResult :=
  let s0 : SourceResult := { requested := [], nodes := [], errored := false }
  let s1 :=
    if keyPresent apiKey then
      runStep s0 Feed.schema (feedOutcome rs.schema (fun p => (schemaNodes p, false)))
    else s0
  let s2 := runStep s1 Feed.issues (feedOutcome rs.issues (fun l => (issueFeedNodes l, false)))
  let s3 := runStep s2 Feed.pulls (feedOutcome rs.pulls (fun l => (pullFeedNodes l, false)))
  let s4 := runStep s3 Feed.integrations (feedOutcome rs.integrations integrationFeedNodes)
  runStep s4 Feed.plugins (feedOutcome rs.plugins (fun l => (pluginFeedNodes l, false)))

theorem replaceFirst_of_isPrefix (pat rep s : List Char)
    (h : pat.isPrefixOf s = true) :
    replaceFirst pat rep s = rep ++ s.drop pat.length := by
  cases s with
  | nil => simp [replaceFirst, h]
  | cons c rest => simp [replaceFirst, h]

theorem replaceFirst_of_not_contains (pat rep s : List Char)
    (h : containsPat pat s = false) :
    replaceFirst pat rep s = s := by
  induction s with
  | nil =>
      simp only [containsPat] at h
      simp [replaceFirst, h]
  | cons c rest ih =>
      simp only [containsPat, Bool.or_eq_false_iff] at h
      simp [replaceFirst, h.1, ih h.2]

theorem string_append_cancel_left (p a b : String) : p ++ a = p ++ b ↔ a = b := by
  constructor
  · intro h
    have h2 := congrArg String.data h
    rw [String.data_append, String.data_append] at h2
    have h3 := List.append_cancel_left h2
    cases a; cases b; exact congrArg String.mk h3
  · intro h
    rw [h]

/-- Claim C3, counterexample: the rewrite is not a case-insensitive prefix
strip. A URL beginning with the domain in upper case is left unchanged
instead of having the prefix removed, and an occurrence of the domain
elsewhere in the string is removed instead of being left untouched. -/
theorem c3_counterexample :
    rewriteUrl ("HTTPS://POSTHOG.COM/x") = "HTTPS://POSTHOG.COM/x" ∧
    rewriteUrl ("HTTPS://POSTHOG.COM/x") ≠ "/x" ∧
    rewriteUrl ("/a?r=https://posthog.com/b") = "/a?r=/b" ∧
    rewriteUrl ("/a?r=https://posthog.com/b") ≠ "/a?r=https://posthog.com/b" := by
  refine ⟨by decide, by decide, by decide, by decide⟩

/-- Claim C3, amended: the integration URL rewrite removes the first
case-sensitive occurrence of the exact string https://posthog.com anywhere
in the URL. In particular a URL beginning with the exact lower-case domain
has that leading prefix removed, and a URL not containing the exact domain
at all is unchanged; upper-case variants are not recognized. -/
theorem c3_theorem (s : String) :
    (phDomain.data.isPrefixOf s.data = true →
      rewriteUrl s = String.mk (s.data.drop phDomain.data.length)) ∧
    (strContains phDomain s = false → rewriteUrl s = s) := by
  constructor
  · intro h
    show String.mk _ = _
    rw [replaceFirst_of_isPrefix _ _ _ h]
    simp
  · intro h
    simp only [strContains] at h
    show String.mk _ = s
    rw [replaceFirst_of_not_contains _ _ _ h]

/-- Claim C3, witness: the amended theorem evaluated at a URL carrying the
exact domain as a prefix and at a URL not containing the domain. -/
theorem c3_witness :
    rewriteUrl ("https://posthog.com/pricing") =
      String.mk (("https://posthog.com/pricing" : String).data.drop phDomain.data.length) ∧
    rewriteUrl ("/docs/api") = "/docs/api" :=
  ⟨(c3_theorem ("https://posthog.com/pricing")).1 (by decide),
   (c3_theorem ("/docs/api")).2 (by decide)⟩

/-- Claim C9: for every URL already in site-relative form, i.e. one not
containing the canonical domain, the rewrite leaves it unchanged, and hence
applying the rewrite twice to such a URL equals applying it once. -/
theorem c9_theorem (s : String) (h : strContains phDomain s = false) :
    rewriteUrl s = s ∧ rewriteUrl (rewriteUrl s) = rewriteUrl s := by
  have h1 : rewriteUrl s = s := by
    simp only [strContains] at h
    show String.mk _ = s
    rw [replaceFirst_of_not_contains _ _ _ h]
  exact ⟨h1, by rw [h1, h1]⟩

/-- Claim C9, witness: the theorem evaluated at a site-relative URL. -/
theorem c9_witness :
    rewriteUrl ("/docs/integrations") = "/docs/integrations" ∧
    rewriteUrl (rewriteUrl ("/docs/integrations")) = rewriteUrl ("/docs/integrations") :=
  c9_theorem ("/docs/integrations") (by decide)

/-- An issue record whose natural key (title) is absent. -/
def c1NoTitle : IssueRecord :=
  { html_url := some ("https://github.com/x/y/issues/2"), title := none,
    number := some 2, user := none, comments := some 0 }

/-- An integration record whose natural key (name) is absent but whose url
is present. -/
def c1Integration : IntegrationRecord :=
  { name := none, url := some ("https://posthog.com/i"), other := [] }

/-- A displayed plugin record whose natural key (name) is absent. -/
def c1Plugin : PluginRecord :=
  { displayOnWebsiteLib := some true, name := none, other := [] }

/-- Claim C1, counterexample: an issue record missing its natural key (the
title) is not excluded by the normalizer; it produces one node, not zero. -/
theorem c1_counterexample :
    (issueFeedNodes [c1NoTitle]).length = 1 ∧
    ¬ (issueFeedNodes [c1NoTitle]).length = 0 := by
  refine ⟨by decide, by decide⟩

/-- Claim C1, amended: the normalizer performs no natural-key exclusion.
Every issue and every pull record produces exactly one node whether or not
its title is present; every integration record whose url is present
produces exactly one node whether or not its name is present, without
aborting; every plugin record with the display flag true produces exactly
one node whether or not its name is present. A missing natural key does
not crash the sourcing pass. -/
theorem c1_theorem (li : List IssueRecord) (lp : List PullRecord)
    (g : IntegrationRecord) (q : PluginRecord) :
    (issueFeedNodes li).length = li.length ∧
    (pullFeedNodes lp).length = lp.length ∧
    (g.url.isSome = true →
      (integrationFeedNodes [g]).1.length = 1 ∧ (integrationFeedNodes [g]).2 = false) ∧
    (q.displayOnWebsiteLib = some true → (pluginFeedNodes [q]).length = 1) := by
  refine ⟨by simp [issueFeedNodes], by simp [pullFeedNodes], ?_, ?_⟩
  · intro h
    cases hg : g.url with
    | none => rw [hg] at h; cases h
    | some u => simp [integrationFeedNodes, normalizeIntegration, hg]
  · intro h
    simp [pluginFeedNodes, h]

/-- Claim C1, witness: the amended theorem evaluated at records missing
their natural keys. -/
theorem c1_witness :
    (issueFeedNodes [c1NoTitle]).length = [c1NoTitle].length ∧
    ((integrationFeedNodes [c1Integration]).1.length = 1 ∧
      (integrationFeedNodes [c1Integration]).2 = false) ∧
    (pluginFeedNodes [c1Plugin]).length = 1 := by
  obtain ⟨a, _, c, d⟩ := c1_theorem [c1NoTitle] [] c1Integration c1Plugin
  exact ⟨a, c (by decide), d rfl⟩

/-- Two distinct issue records sharing one title. -/
def c5First : IssueRecord :=
  { html_url := some ("https://github.com/x/y/issues/1"), title := some ("Bug"),
    number := some 1, user := none, comments := some 0 }

/-- Second record with the same title but a different number. -/
def c5Second : IssueRecord :=
  { html_url := some ("https://github.com/x/y/issues/2"), title := some ("Bug"),
    number := some 2, user := none, comments := some 5 }

/-- Claim C5, counterexample: two distinct issue records sharing a title
yield nodes of the same type with the same identifier, so identifiers are
not unique within a type tag. -/
theorem c5_counterexample :
    ¬ c5First = c5Second ∧
    (normalizeIssue c5First).id = (normalizeIssue c5Second).id ∧
    (normalizeIssue c5First).type = (normalizeIssue c5Second).type := by
  refine ⟨by decide, by decide, by decide⟩

/-- An integration record whose catalog extras carry an id key, which the
trailing rest-spread makes the node identifier. -/
def c5IntOverride : IntegrationRecord :=
  { name := some ("n1"), url := some ("/x"), other := [("id", "forced-id")] }

/-- A plugin record whose catalog extras carry an id key. -/
def c5PlugOverride : PluginRecord :=
  { displayOnWebsiteLib := some true, name := some ("n2"),
    other := [("id", "forced-id")] }

/-- Claim C5, amended: within each type tag the node identifier is derived
from the feed prefix and the interpolated natural key, except that for
integration and plugin nodes a catalog record carrying an id extra key
overrides the derived identifier with that value via the trailing
rest-spread. Hence issue and pull nodes collide exactly when their
interpolated titles coincide; integration and plugin nodes without id
extras collide exactly when their interpolated names coincide; and with
an id extra the identifier is the extra value itself. Identifier
uniqueness within a type tag therefore holds only when these resulting
keys are pairwise distinct. -/
theorem c5_theorem (r r2 : IssueRecord) (p p2 : PullRecord)
    (g g2 : IntegrationRecord) (q q2 : PluginRecord) :
    ((normalizeIssue r).id = (normalizeIssue r2).id ↔
      jsToString r.title = jsToString r2.title) ∧
    ((normalizePull p).id = (normalizePull p2).id ↔
      jsToString p.title = jsToString p2.title) ∧
    (jsLookup ("id") g.other = none → jsLookup ("id") g2.other = none →
      (integrationNodeId g = integrationNodeId g2 ↔
        jsToString g.name = jsToString g2.name)) ∧
    (∀ v, jsLookup ("id") g.other = some v → integrationNodeId g = v) ∧
    (jsLookup ("id") q.other = none → jsLookup ("id") q2.other = none →
      ((normalizePlugin q).id = (normalizePlugin q2).id ↔
        jsToString q.name = jsToString q2.name)) ∧
    (∀ v, jsLookup ("id") q.other = some v → (normalizePlugin q).id = v) := by
  refine ⟨?_, ?_, ?_, ?_, ?_, ?_⟩
  · simp only [normalizeIssue, createNodeId]
    exact string_append_cancel_left _ _ _
  · simp only [normalizePull, createNodeId]
    exact string_append_cancel_left _ _ _
  · intro h1 h2
    simp only [integrationNodeId, h1, h2, integrationId, createNodeId]
    exact string_append_cancel_left _ _ _
  · intro v hv
    simp [integrationNodeId, hv]
  · intro h1 h2
    simp only [normalizePlugin, pluginNodeId, h1, h2, pluginId, createNodeId]
    exact string_append_cancel_left _ _ _
  · intro v hv
    simp [normalizePlugin, pluginNodeId, hv]

/-- Two integration records with distinct names and no extras. -/
def c5IntA : IntegrationRecord :=
  { name := some ("a"), url := some ("/a"), other := [] }

/-- Second integration record for the identifier comparison. -/
def c5IntB : IntegrationRecord :=
  { name := some ("b"), url := some ("/b"), other := [] }

/-- Two plugin records with distinct names and no extras. -/
def c5PlugA : PluginRecord :=
  { displayOnWebsiteLib := some true, name := some ("a"), other := [] }

/-- Second plugin record for the identifier comparison. -/
def c5PlugB : PluginRecord :=
  { displayOnWebsiteLib := some true, name := some ("b"), other := [] }

/-- A pull record for instantiating the pull conjunct. -/
def c5Pull : PullRecord :=
  { html_url := none, title := some ("T"), number := none, user := none }

/-- Claim C5, witness: the amended theorem evaluated at records without
and with id extras. -/
theorem c5_witness :
    (integrationNodeId c5IntA = integrationNodeId c5IntB ↔
      jsToString c5IntA.name = jsToString c5IntB.name) ∧
    integrationNodeId c5IntOverride = "forced-id" ∧
    ((normalizePlugin c5PlugA).id = (normalizePlugin c5PlugB).id ↔
      jsToString c5PlugA.name = jsToString c5PlugB.name) ∧
    (normalizePlugin c5PlugOverride).id = "forced-id" := by
  obtain ⟨-, -, h3, -, h5, -⟩ :=
    c5_theorem c5First c5First c5Pull c5Pull c5IntA c5IntB c5PlugA c5PlugB
  obtain ⟨-, -, -, h4, -, h6⟩ :=
    c5_theorem c5First c5First c5Pull c5Pull c5IntOverride c5IntB c5PlugOverride c5PlugB
  exact ⟨h3 rfl rfl, h4 ("forced-id") rfl, h5 rfl rfl, h6 ("forced-id") rfl⟩

/-- A plugin record with the display flag false. -/
def c7Hidden : PluginRecord :=
  { displayOnWebsiteLib := some false, name := some ("geoip"), other := [] }

/-- A plugin record with the display flag true. -/
def c7Shown : PluginRecord :=
  { displayOnWebsiteLib := some true, name := some ("geoip"), other := [] }

/-- Claim C7: a plugin record with the display flag false yields no node
and a plugin record with the display flag true yields exactly one node. -/
theorem c7_theorem (q : PluginRecord) :
    (q.displayOnWebsiteLib = some false → pluginFeedNodes [q] = []) ∧
    (q.displayOnWebsiteLib = some true → (pluginFeedNodes [q]).length = 1) := by
  constructor
  · intro h
    simp [pluginFeedNodes, h]
  · intro h
    simp [pluginFeedNodes, h]

/-- Claim C7, witness: the theorem evaluated at a hidden and at a shown
plugin record. -/
theorem c7_witness :
    pluginFeedNodes [c7Hidden] = [] ∧ (pluginFeedNodes [c7Shown]).length = 1 :=
  ⟨(c7_theorem c7Hidden).1 rfl, (c7_theorem c7Shown).2 rfl⟩

/-- The concrete issue record of the specification example. -/
def c8Record : IssueRecord :=
  { html_url := some ("https://github.com/x/y/issues/1"), title := some ("Bug"),
    number := some 1,
    user := some { login := some ("a"), avatar_url := some ("u"), html_url := some ("p") },
    comments := some 3 }

/-- Claim C8: the specification example record produces exactly one node
whose mapped fields are url, title, number, comments and the author
descriptor with username, avatar and url taken from the raw user object. -/
theorem c8_theorem :
    (issueFeedNodes [c8Record]).length = 1 ∧
    (normalizeIssue c8Record).fields = NodeFields.issue
      { url := some ("https://github.com/x/y/issues/1"), title := some ("Bug"),
        number := some 1, comments := some 3,
        user := { username := some ("a"), avatar := some ("u"), url := some ("p") } } := by
  refine ⟨by decide, by decide⟩

/-- An issue record with no user object. -/
def c10Issue : IssueRecord :=
  { html_url := some ("https://github.com/x/y/issues/9"), title := some ("T"),
    number := some 9, user := none, comments := some 1 }

/-- A pull record with no user object. -/
def c10Pull : PullRecord :=
  { html_url := some ("https://github.com/x/y/pull/9"), title := some ("T"),
    number := some 9, user := none }

/-- Claim C10: an issue or pull record with an absent user object still
produces exactly one node, without crashing, whose author descriptor
fields username, avatar and url are all absent. -/
theorem c10_theorem (r : IssueRecord) (p : PullRecord)
    (hr : r.user = none) (hp : p.user = none) :
    (issueFeedNodes [r]).length = 1 ∧
    (normalizeIssue r).fields = NodeFields.issue
      { url := r.html_url, title := r.title, number := r.number, comments := r.comments,
        user := { username := none, avatar := none, url := none } } ∧
    (pullFeedNodes [p]).length = 1 ∧
    (normalizePull p).fields = NodeFields.pull
      { url := p.html_url, title := p.title, number := p.number,
        user := { username := none, avatar := none, url := none } } := by
  refine ⟨by simp [issueFeedNodes], ?_, by simp [pullFeedNodes], ?_⟩
  · simp [normalizeIssue, issueData, userFields, hr]
  · simp [normalizePull, pullData, userFields, hp]

/-- Claim C10, witness: the theorem evaluated at concrete records with an
absent user object. -/
theorem c10_witness :
    (issueFeedNodes [c10Issue]).length = 1 ∧
    (normalizeIssue c10Issue).fields = NodeFields.issue
      { url := c10Issue.html_url, title := c10Issue.title, number := c10Issue.number,
        comments := c10Issue.comments,
        user := { username := none, avatar := none, url := none } } ∧
    (pullFeedNodes [c10Pull]).length = 1 ∧
    (normalizePull c10Pull).fields = NodeFields.pull
      { url := c10Pull.html_url, title := c10Pull.title, number := c10Pull.number,
        user := { username := none, avatar := none, url := none } } :=
  c10_theorem c10Issue c10Pull rfl rfl

/-- An integration record whose url carries the canonical domain. -/
def c4First : IntegrationRecord :=
  { name := some ("n"), url := some ("https://posthog.com/a"), other := [] }

/-- An integration record already site-relative, rewriting to the same
node URL as c4First. -/
def c4Second : IntegrationRecord :=
  { name := some ("n"), url := some ("/a"), other := [] }

/-- Claim C4, counterexample: two integration records yield nodes with
identical field values and identical identifiers and yet different
digests, because the digest is computed over the raw record before the URL
rewrite; hence the digest is not a function of the node field values. -/
theorem c4_counterexample :
    (normalizeIntegration c4First).map Node.fields =
      (normalizeIntegration c4Second).map Node.fields ∧
    (normalizeIntegration c4First).map Node.id =
      (normalizeIntegration c4Second).map Node.id ∧
    ¬ (normalizeIntegration c4First).map Node.contentDigest =
      (normalizeIntegration c4Second).map Node.contentDigest := by
  refine ⟨by decide, by decide, by decide⟩

/-- An issue record with no user object. -/
def c4IssueA : IssueRecord :=
  { html_url := some ("h"), title := some ("t"), number := some 1, user := none,
    comments := some 0 }

/-- The same issue record except the user object is present with all of
its subfields absent; the mapped data object coincides with the one of
c4IssueA, so the two digests coincide. -/
def c4IssueB : IssueRecord :=
  { html_url := some ("h"), title := some ("t"), number := some 1,
    user := some { login := none, avatar_url := none, html_url := none },
    comments := some 0 }

/-- Claim C4, amended: every digest is a deterministic pure function of
the raw input record, so normalizing an identical payload twice produces
identical digests. For issue and pull nodes the digest is a function of
exactly the node field values, equal field values giving equal digests
and conversely; it is not injective in the raw record, since an absent
user and a user object with all subfields absent are distinct records
with equal digests. For integration and plugin nodes whose extras carry
no internal key, the digest determines the raw record, so changing any
record value changes the digest, but the digest is not a function of the
node field values, being computed over the record before the URL
rewrite. -/
theorem c4_theorem (r r2 : IssueRecord) (p p2 : PullRecord)
    (g g2 : IntegrationRecord) (q q2 : PluginRecord)
    (hg : g.url.isSome = true) (hg2 : g2.url.isSome = true)
    (hgi : jsLookup ("internal") g.other = none)
    (hgi2 : jsLookup ("internal") g2.other = none)
    (hqi : jsLookup ("internal") q.other = none)
    (hqi2 : jsLookup ("internal") q2.other = none) :
    ((normalizeIssue r).fields = (normalizeIssue r2).fields ↔
      (normalizeIssue r).contentDigest = (normalizeIssue r2).contentDigest) ∧
    ((normalizePull p).fields = (normalizePull p2).fields ↔
      (normalizePull p).contentDigest = (normalizePull p2).contentDigest) ∧
    (¬ c4IssueA = c4IssueB ∧
      (normalizeIssue c4IssueA).contentDigest = (normalizeIssue c4IssueB).contentDigest) ∧
    ((normalizeIntegration g).map Node.contentDigest =
        (normalizeIntegration g2).map Node.contentDigest ↔ g = g2) ∧
    ((normalizePlugin q).contentDigest = (normalizePlugin q2).contentDigest ↔
      q = q2) := by
  refine ⟨?_, ?_, ⟨by decide, by decide⟩, ?_, ?_⟩
  · simp [normalizeIssue, createContentDigest]
  · simp [normalizePull, createContentDigest]
  · obtain ⟨u, hu⟩ := Option.isSome_iff_exists.mp hg
    obtain ⟨u2, hu2⟩ := Option.isSome_iff_exists.mp hg2
    simp [normalizeIntegration, hu, hu2, internalDigest, hgi, hgi2, createContentDigest]
  · simp [normalizePlugin, internalDigest, hqi, hqi2, createContentDigest]

/-- Claim C4, witness: the amended theorem evaluated at concrete issue,
pull, integration and plugin records. -/
theorem c4_witness :
    ((normalizeIssue c5First).fields = (normalizeIssue c5Second).fields ↔
      (normalizeIssue c5First).contentDigest = (normalizeIssue c5Second).contentDigest) ∧
    ((normalizePull c5Pull).fields = (normalizePull c5Pull).fields ↔
      (normalizePull c5Pull).contentDigest = (normalizePull c5Pull).contentDigest) ∧
    (¬ c4IssueA = c4IssueB ∧
      (normalizeIssue c4IssueA).contentDigest = (normalizeIssue c4IssueB).contentDigest) ∧
    ((normalizeIntegration c4First).map Node.contentDigest =
        (normalizeIntegration c4Second).map Node.contentDigest ↔ c4First = c4Second) ∧
    ((normalizePlugin c5PlugA).contentDigest = (normalizePlugin c5PlugB).contentDigest ↔
      c5PlugA = c5PlugB) :=
  c4_theorem c5First c5Second c5Pull c5Pull c4First c4Second c5PlugA c5PlugB
    (by decide) (by decide) rfl rfl rfl rfl

/-- Type test for the two node variants of the schema feed. -/
def isSchemaType (n : Node) : Bool :=
  match n.type with
  | some t => t == "api_endpoint" || t == "ApiComponents"
  | none => false

theorem filter_schema_issueFeed (l : List IssueRecord) :
    (issueFeedNodes l).filter isSchemaType = [] := by
  induction l with
  | nil => rfl
  | cons r rest ih =>
      have hr : isSchemaType (normalizeIssue r) = false := rfl
      simp only [issueFeedNodes, List.map_cons, List.filter_cons, hr] at ih ⊢
      simpa using ih

theorem filter_schema_pullFeed (l : List PullRecord) :
    (pullFeedNodes l).filter isSchemaType = [] := by
  induction l with
  | nil => rfl
  | cons r rest ih =>
      have hr : isSchemaType (normalizePull r) = false := rfl
      simp only [pullFeedNodes, List.map_cons, List.filter_cons, hr] at ih ⊢
      simpa using ih

theorem internalType_ne_schema (tag : String) (o : List (String × String))
    (h1 : (tag == "api_endpoint") = false) (h2 : (tag == "ApiComponents") = false) :
    (match internalType tag o with
      | some t => t == "api_endpoint" || t == "ApiComponents"
      | none => false) = false := by
  rcases hj : jsLookup ("internal") o with _ | v <;>
    simp [internalType, hj, h1, h2]

theorem filter_schema_integrationFeed (l : List IntegrationRecord) :
    ((integrationFeedNodes l).1).filter isSchemaType = [] := by
  induction l with
  | nil => rfl
  | cons r rest ih =>
      cases hu : r.url with
      | none => simp [integrationFeedNodes, normalizeIntegration, hu]
      | some u =>
          have hn : isSchemaType
              { id := integrationNodeId r
                type := internalType ("Integration") r.other
                contentDigest := internalDigest (DigestInput.integration r) r.other
                fields := NodeFields.integration (rewriteUrl u) r.name r.other } = false :=
            internalType_ne_schema ("Integration") r.other rfl rfl
          simp only [integrationFeedNodes, normalizeIntegration, hu]
          rw [List.filter_cons, hn, if_neg (by simp)]
          exact ih

theorem filter_schema_pluginMap (l : List PluginRecord) :
    (l.map normalizePlugin).filter isSchemaType = [] := by
  induction l with
  | nil => rfl
  | cons r rest ih =>
      have hr : isSchemaType (normalizePlugin r) = false :=
        internalType_ne_schema ("Plugin") r.other rfl rfl
      simp only [List.map_cons]
      rw [List.filter_cons, hr, if_neg (by simp)]
      exact ih

theorem filter_schema_pluginFeed (l : List PluginRecord) :
    (pluginFeedNodes l).filter isSchemaType = [] :=
  filter_schema_pluginMap _

theorem runStep_nodes_eq (acc : SourceResult) (f : Feed) (out : List Node × Bool) :
    (runStep acc f out).nodes = acc.nodes ∨
    (runStep acc f out).nodes = acc.nodes ++ out.1 := by
  unfold runStep
  cases hb : acc.errored <;> simp [hb]

theorem mem_runStep_requested (acc : SourceResult) (f : Feed) (out : List Node × Bool)
    (x : Feed) (hx : x ∈ (runStep acc f out).requested) :
    x ∈ acc.requested ∨ x = f := by
  unfold runStep at hx
  cases hb : acc.errored with
  | false =>
      rw [hb] at hx
      simpa using hx
  | true =>
      rw [hb] at hx
      simp at hx
      exact Or.inl hx

theorem runStep_filter_empty (acc : SourceResult) (f : Feed) (out : List Node × Bool)
    (h1 : acc.nodes.filter isSchemaType = [])
    (h2 : out.1.filter isSchemaType = []) :
    ((runStep acc f out).nodes).filter isSchemaType = [] := by
  rcases runStep_nodes_eq acc f out with h | h <;>
    simp [h, List.filter_append, h1, h2]

theorem feedOutcome_filter_empty {α : Type} (res : Except Unit α)
    (f : α → List Node × Bool)
    (h : ∀ a, ((f a).1).filter isSchemaType = []) :
    ((feedOutcome res f).1).filter isSchemaType = [] := by
  cases res with
  | error e => rfl
  | ok a => exact h a

/-- Claim C6: with the gating credential absent, the schema feed is never
requested, zero schema-feed nodes (endpoint-group and api-components
nodes) appear in the output, and the whole pass is independent of the
schema fetch outcome, so no error can arise from that feed. -/
theorem c6_theorem (rs : FeedResults) (s2 : Except Unit SchemaPayload) :
    Feed.schema ∉ (sourceNodes none rs).requested ∧
    ((sourceNodes none rs).nodes).filter isSchemaType = [] ∧
    sourceNodes none { rs with schema := s2 } = sourceNodes none rs := by
  have e : sourceNodes none rs =
      runStep (runStep (runStep (runStep
        { requested := [], nodes := [], errored := false }
        Feed.issues (feedOutcome rs.issues (fun l => (issueFeedNodes l, false))))
        Feed.pulls (feedOutcome rs.pulls (fun l => (pullFeedNodes l, false))))
        Feed.integrations (feedOutcome rs.integrations integrationFeedNodes))
        Feed.plugins (feedOutcome rs.plugins (fun l => (pluginFeedNodes l, false))) := rfl
  refine ⟨?_, ?_, rfl⟩
  · intro hx
    rw [e] at hx
    rcases mem_runStep_requested _ _ _ _ hx with hx | hx
    · rcases mem_runStep_requested _ _ _ _ hx with hx | hx
      · rcases mem_runStep_requested _ _ _ _ hx with hx | hx
        · rcases mem_runStep_requested _ _ _ _ hx with hx | hx
          · simp at hx
          · cases hx
        · cases hx
      · cases hx
    · cases hx
  · rw [e]
    refine runStep_filter_empty _ _ _ ?_ ?_
    · refine runStep_filter_empty _ _ _ ?_ ?_
      · refine runStep_filter_empty _ _ _ ?_ ?_
        · refine runStep_filter_empty _ _ _ rfl ?_
          · exact feedOutcome_filter_empty _ _ filter_schema_issueFeed
        · exact feedOutcome_filter_empty _ _ filter_schema_pullFeed
      · exact feedOutcome_filter_empty _ _ filter_schema_integrationFeed
    · exact feedOutcome_filter_empty _ _ filter_schema_pluginFeed

theorem filter_schema_endpointMap (gs : List EndpointGroup) :
    (gs.map normalizeEndpointGroup).filter isSchemaType = gs.map normalizeEndpointGroup := by
  induction gs with
  | nil => rfl
  | cons g rest ih =>
      have hg : isSchemaType (normalizeEndpointGroup g) = true := rfl
      simp [List.filter_cons, hg, ih]

theorem filter_not_schema_endpointMap (gs : List EndpointGroup) :
    (gs.map normalizeEndpointGroup).filter (fun n => !(isSchemaType n)) = [] := by
  induction gs with
  | nil => rfl
  | cons g rest ih =>
      have hg : isSchemaType (normalizeEndpointGroup g) = true := rfl
      simp [List.filter_cons, hg, ih]

theorem filter_schema_schemaNodes (p : SchemaPayload) :
    (schemaNodes p).filter isSchemaType = schemaNodes p := by
  unfold schemaNodes
  rw [List.filter_append, filter_schema_endpointMap]
  simp [List.filter_cons, isSchemaType]

theorem filter_not_schema_schemaNodes (p : SchemaPayload) :
    (schemaNodes p).filter (fun n => !(isSchemaType n)) = [] := by
  unfold schemaNodes
  rw [List.filter_append, filter_not_schema_endpointMap]
  simp [List.filter_cons, isSchemaType]

theorem runStep_filter_eq (pr : Node → Bool) (acc : SourceResult) (f : Feed)
    (out : List Node × Bool) (h2 : out.1.filter pr = []) :
    ((runStep acc f out).nodes).filter pr = (acc.nodes).filter pr := by
  rcases runStep_nodes_eq acc f out with hn | hn <;>
    simp [hn, List.filter_append, h2]

/-- A displayed plugin record used to exhibit cross-feed damage. -/
def c2Plugin : PluginRecord :=
  { displayOnWebsiteLib := some true, name := some ("replicator"), other := [] }

/-- Feed results in which the issues fetch fails while every other feed
succeeds, the plugins feed carrying one displayed record. -/
def c2Fail : FeedResults :=
  { schema := Except.ok { groups := [], components := none }
    issues := Except.error ()
    pulls := Except.ok []
    integrations := Except.ok []
    plugins := Except.ok [c2Plugin] }

/-- The same feed results with the issues fetch succeeding. -/
def c2Ok : FeedResults :=
  { c2Fail with issues := Except.ok [] }

/-- Claim C2, counterexample: with the issues fetch failing, the plugins
feed emits no node, although with the issues fetch succeeding it emits
one; a later feed is therefore not unaffected by an earlier failing
feed. -/
theorem c2_counterexample :
    ((sourceNodes none c2Fail).nodes).filter (fun n => n.type == some ("Plugin")) = [] ∧
    ¬ ((sourceNodes none c2Ok).nodes).filter (fun n => n.type == some ("Plugin")) = [] := by
  refine ⟨by decide, by decide⟩

/-- Fetch and normalization outcome of one feed, uniformly over the five
feeds. -/
def feedStep (rs : FeedResults) : Feed → List Node × Bool
  | Feed.schema => feedOutcome rs.schema (fun p => (schemaNodes p, false))
  | Feed.issues => feedOutcome rs.issues (fun l => (issueFeedNodes l, false))
  | Feed.pulls => feedOutcome rs.pulls (fun l => (pullFeedNodes l, false))
  | Feed.integrations => feedOutcome rs.integrations integrationFeedNodes
  | Feed.plugins => feedOutcome rs.plugins (fun l => (pluginFeedNodes l, false))

/-- The feeds in the fixed order the source awaits them. -/
def feedOrder (k : Option String) : List Feed :=
  (if keyPresent k then [Feed.schema] else []) ++
    [Feed.issues, Feed.pulls, Feed.integrations, Feed.plugins]

/-- Sequentially run a list of feeds over an accumulated result. -/
def runFeeds (rs : FeedResults) : List Feed → SourceResult → SourceResult
  | [], acc => acc
  | f :: fs, acc => runFeeds rs fs (runStep acc f (feedStep rs f))

theorem sourceNodes_eq_runFeeds (k : Option String) (rs : FeedResults) :
    sourceNodes k rs =
      runFeeds rs (feedOrder k) { requested := [], nodes := [], errored := false } := by
  cases hk : keyPresent k <;>
    simp [sourceNodes, runFeeds, feedOrder, feedStep, hk]

theorem runStep_of_errored (acc : SourceResult) (f : Feed) (out : List Node × Bool)
    (h : acc.errored = true) : runStep acc f out = acc := by
  simp [runStep, h]

theorem runFeeds_of_errored (rs : FeedResults) (fs : List Feed) :
    ∀ acc : SourceResult, acc.errored = true → runFeeds rs fs acc = acc := by
  induction fs with
  | nil => intro acc _; rfl
  | cons f rest ih =>
      intro acc h
      show runFeeds rs rest (runStep acc f (feedStep rs f)) = acc
      rw [runStep_of_errored acc f _ h]
      exact ih acc h

theorem runStep_fail_errored (acc : SourceResult) (f : Feed) :
    (runStep acc f ([], true)).errored = true := by
  cases hb : acc.errored with
  | true => rw [runStep_of_errored acc f _ hb]; exact hb
  | false => simp [runStep, hb]

theorem runFeeds_errored_of_fail (rs : FeedResults) (f : Feed)
    (hf : feedStep rs f = ([], true)) :
    ∀ (fs : List Feed) (acc : SourceResult), f ∈ fs →
      (runFeeds rs fs acc).errored = true := by
  intro fs
  induction fs with
  | nil => intro acc h; cases h
  | cons g rest ih =>
      intro acc hmem
      rcases List.mem_cons.mp hmem with rfl | hfr
      · show (runFeeds rs rest (runStep acc f (feedStep rs f))).errored = true
        rw [hf, runFeeds_of_errored rs rest _ (runStep_fail_errored acc f)]
        exact runStep_fail_errored acc f
      · exact ih (runStep acc g (feedStep rs g)) hfr

theorem runFeeds_requested_of_fail (rs : FeedResults) (f : Feed)
    (hf : feedStep rs f = ([], true)) :
    ∀ (pre : List Feed), ∀ (post : List Feed) (acc : SourceResult) (x : Feed),
      x ∈ (runFeeds rs (pre ++ f :: post) acc).requested →
      x ∈ acc.requested ∨ x ∈ pre ∨ x = f := by
  intro pre
  induction pre with
  | nil =>
      intro post acc x hx
      rw [show ([] ++ f :: post : List Feed) = f :: post from rfl] at hx
      rw [show runFeeds rs (f :: post) acc =
        runFeeds rs post (runStep acc f (feedStep rs f)) from rfl, hf,
        runFeeds_of_errored rs post _ (runStep_fail_errored acc f)] at hx
      rcases mem_runStep_requested acc f ([], true) x hx with h | h
      · exact Or.inl h
      · exact Or.inr (Or.inr h)
  | cons g pre2 ih =>
      intro post acc x hx
      rw [show ((g :: pre2) ++ f :: post : List Feed) = g :: (pre2 ++ f :: post) from rfl] at hx
      rw [show runFeeds rs (g :: (pre2 ++ f :: post)) acc =
        runFeeds rs (pre2 ++ f :: post) (runStep acc g (feedStep rs g)) from rfl] at hx
      rcases ih post (runStep acc g (feedStep rs g)) x hx with h | h | h
      · rcases mem_runStep_requested acc g (feedStep rs g) x h with h2 | h2
        · exact Or.inl h2
        · exact Or.inr (Or.inl (by rw [h2]; exact List.mem_cons_self g pre2))
      · exact Or.inr (Or.inl (List.mem_cons_of_mem g h))
      · exact Or.inr (Or.inr h)

theorem runFeeds_congr_of_fail (rs rs2 : FeedResults) (f : Feed)
    (hf : feedStep rs f = ([], true)) (hf2 : feedStep rs2 f = ([], true)) :
    ∀ (pre : List Feed), ∀ (post : List Feed),
      (∀ g ∈ pre, feedStep rs2 g = feedStep rs g) →
      ∀ acc, runFeeds rs2 (pre ++ f :: post) acc = runFeeds rs (pre ++ f :: post) acc := by
  intro pre
  induction pre with
  | nil =>
      intro post _ acc
      show runFeeds rs2 post (runStep acc f (feedStep rs2 f)) =
        runFeeds rs post (runStep acc f (feedStep rs f))
      rw [hf, hf2,
        runFeeds_of_errored rs2 post _ (runStep_fail_errored acc f),
        runFeeds_of_errored rs post _ (runStep_fail_errored acc f)]
  | cons g pre2 ih =>
      intro post hpre acc
      show runFeeds rs2 (pre2 ++ f :: post) (runStep acc g (feedStep rs2 g)) =
        runFeeds rs (pre2 ++ f :: post) (runStep acc g (feedStep rs g))
      rw [hpre g (List.mem_cons_self g pre2)]
      exact ih post (fun x hx => hpre x (List.mem_cons_of_mem g hx)) _

theorem runFeeds_nodes_prefix (rs : FeedResults) :
    ∀ (fs : List Feed) (acc : SourceResult),
      ∃ t, (runFeeds rs fs acc).nodes = acc.nodes ++ t := by
  intro fs
  induction fs with
  | nil => intro acc; exact ⟨[], by simp [runFeeds]⟩
  | cons g rest ih =>
      intro acc
      obtain ⟨t, ht⟩ := ih (runStep acc g (feedStep rs g))
      rcases runStep_nodes_eq acc g (feedStep rs g) with h | h
      · refine ⟨t, ?_⟩
        show (runFeeds rs rest (runStep acc g (feedStep rs g))).nodes = acc.nodes ++ t
        rw [ht, h]
      · refine ⟨(feedStep rs g).1 ++ t, ?_⟩
        show (runFeeds rs rest (runStep acc g (feedStep rs g))).nodes =
          acc.nodes ++ ((feedStep rs g).1 ++ t)
        rw [ht, h, List.append_assoc]

theorem runFeeds_take_of_fail (rs rs2 : FeedResults) (f : Feed)
    (hf : feedStep rs f = ([], true)) :
    ∀ (pre : List Feed), ∀ (post : List Feed),
      (∀ g ∈ pre, feedStep rs2 g = feedStep rs g) →
      ∀ acc,
        ((runFeeds rs2 (pre ++ f :: post) acc).nodes).take
            ((runFeeds rs (pre ++ f :: post) acc).nodes).length =
          (runFeeds rs (pre ++ f :: post) acc).nodes := by
  intro pre
  induction pre with
  | nil =>
      intro post _ acc
      have hfail : runFeeds rs ([] ++ f :: post) acc = runStep acc f ([], true) := by
        show runFeeds rs post (runStep acc f (feedStep rs f)) = _
        rw [hf]
        exact runFeeds_of_errored rs post _ (runStep_fail_errored acc f)
      have hnodes : (runStep acc f ([], true)).nodes = acc.nodes := by
        rcases runStep_nodes_eq acc f ([], true) with h | h <;> simp [h]
      obtain ⟨t, ht⟩ := runFeeds_nodes_prefix rs2 ([] ++ f :: post) acc
      rw [hfail, hnodes, ht]
      exact List.take_left acc.nodes t
  | cons g pre2 ih =>
      intro post hpre acc
      show ((runFeeds rs2 (pre2 ++ f :: post) (runStep acc g (feedStep rs2 g))).nodes).take
          ((runFeeds rs (pre2 ++ f :: post) (runStep acc g (feedStep rs g))).nodes).length =
        (runFeeds rs (pre2 ++ f :: post) (runStep acc g (feedStep rs g))).nodes
      rw [hpre g (List.mem_cons_self g pre2)]
      exact ih post (fun x hx => hpre x (List.mem_cons_of_mem g hx)) _

/-- Consequences of one feed failing, assembled at the level of
sourceNodes: the pass errors, feeds outside the prefix before the failing
feed are never requested, the outcome ignores every feed the prefix does
not determine, and the failing run output is an initial segment of any
run agreeing on the prefix. -/
theorem sourceNodes_fail_main (k : Option String) (rs rs2 rs3 : FeedResults)
    (f : Feed) (hf : feedStep rs f = ([], true)) (pre post : List Feed)
    (horder : feedOrder k = pre ++ f :: post)
    (hf2 : feedStep rs2 f = ([], true))
    (hpre2 : ∀ g ∈ pre, feedStep rs2 g = feedStep rs g)
    (hpre3 : ∀ g ∈ pre, feedStep rs3 g = feedStep rs g) :
    (sourceNodes k rs).errored = true ∧
    (∀ x, x ∉ pre → ¬ x = f → x ∉ (sourceNodes k rs).requested) ∧
    sourceNodes k rs2 = sourceNodes k rs ∧
    ((sourceNodes k rs3).nodes).take ((sourceNodes k rs).nodes).length =
      (sourceNodes k rs).nodes := by
  simp only [sourceNodes_eq_runFeeds]
  rw [horder]
  refine ⟨?_, ?_, ?_, ?_⟩
  · exact runFeeds_errored_of_fail rs f hf _ _ (by simp)
  · intro x hx1 hx2 hx
    rcases runFeeds_requested_of_fail rs f hf pre post _ x hx with h1 | h1 | h1
    · simp at h1
    · exact hx1 h1
    · exact hx2 h1
  · exact runFeeds_congr_of_fail rs rs2 f hf hf2 pre post hpre2 _
  · exact runFeeds_take_of_fail rs rs3 f hf pre post hpre3 _

/-- Claim C2, amended: the fetches are awaited sequentially in the fixed
order (the schema feed when the credential gates it in, then issues,
pulls, integrations, plugins) inside one async function with no error
handling, so feed failures are not isolated. Whichever feed fails: the
pass ends in the errored state; every feed after the failing one in the
order is not requested; the outcome is independent of the fetch results
of the feeds after it; and the feeds before it are unaffected, the
erroring run output being exactly the initial segment of the output of
the run in which the failing fetch succeeds — in particular the failing
feed and all later feeds emit no nodes. -/
theorem c2_theorem (k : Option String) (rs : FeedResults) :
    (rs.issues = Except.error () →
      (sourceNodes k rs).errored = true ∧
      Feed.pulls ∉ (sourceNodes k rs).requested ∧
      Feed.integrations ∉ (sourceNodes k rs).requested ∧
      Feed.plugins ∉ (sourceNodes k rs).requested ∧
      (∀ a b c, sourceNodes k
          { rs with
            pulls := a
            integrations := b
            plugins := c } = sourceNodes k rs) ∧
      (∀ l, ((sourceNodes k { rs with issues := Except.ok l }).nodes).take
          ((sourceNodes k rs).nodes).length = (sourceNodes k rs).nodes)) ∧
    (rs.pulls = Except.error () →
      (sourceNodes k rs).errored = true ∧
      Feed.integrations ∉ (sourceNodes k rs).requested ∧
      Feed.plugins ∉ (sourceNodes k rs).requested ∧
      (∀ b c, sourceNodes k
          { rs with
            integrations := b
            plugins := c } = sourceNodes k rs) ∧
      (∀ l, ((sourceNodes k { rs with pulls := Except.ok l }).nodes).take
          ((sourceNodes k rs).nodes).length = (sourceNodes k rs).nodes)) ∧
    (rs.integrations = Except.error () →
      (sourceNodes k rs).errored = true ∧
      Feed.plugins ∉ (sourceNodes k rs).requested ∧
      (∀ c, sourceNodes k { rs with plugins := c } = sourceNodes k rs) ∧
      (∀ l, ((sourceNodes k { rs with integrations := Except.ok l }).nodes).take
          ((sourceNodes k rs).nodes).length = (sourceNodes k rs).nodes)) ∧
    (rs.plugins = Except.error () →
      (sourceNodes k rs).errored = true ∧
      (∀ l, ((sourceNodes k { rs with plugins := Except.ok l }).nodes).take
          ((sourceNodes k rs).nodes).length = (sourceNodes k rs).nodes)) ∧
    (keyPresent k = true → rs.schema = Except.error () →
      sourceNodes k rs = { requested := [Feed.schema], nodes := [], errored := true } ∧
      (∀ a b c d, sourceNodes k
          { rs with
            issues := a
            pulls := b
            integrations := c
            plugins := d } = sourceNodes k rs) ∧
      (∀ p, ((sourceNodes k { rs with schema := Except.ok p }).nodes).take
          ((sourceNodes k rs).nodes).length = (sourceNodes k rs).nodes)) := by
  refine ⟨?_, ?_, ?_, ?_, ?_⟩
  · intro h
    have hf : feedStep rs Feed.issues = ([], true) := by
      simp [feedStep, feedOutcome, h]
    cases hk : keyPresent k with
    | false =>
        have horder : feedOrder k =
            [Feed.issues, Feed.pulls, Feed.integrations, Feed.plugins] := by
          simp [feedOrder, hk]
        refine ⟨?_, ?_, ?_, ?_, ?_, ?_⟩
        · exact (sourceNodes_fail_main k rs rs rs Feed.issues hf []
            [Feed.pulls, Feed.integrations, Feed.plugins] horder hf
            (fun g _ => rfl) (fun g _ => rfl)).1
        · exact (sourceNodes_fail_main k rs rs rs Feed.issues hf []
            [Feed.pulls, Feed.integrations, Feed.plugins] horder hf
            (fun g _ => rfl) (fun g _ => rfl)).2.1 Feed.pulls (by decide) (by decide)
        · exact (sourceNodes_fail_main k rs rs rs Feed.issues hf []
            [Feed.pulls, Feed.integrations, Feed.plugins] horder hf
            (fun g _ => rfl) (fun g _ => rfl)).2.1 Feed.integrations (by decide) (by decide)
        · exact (sourceNodes_fail_main k rs rs rs Feed.issues hf []
            [Feed.pulls, Feed.integrations, Feed.plugins] horder hf
            (fun g _ => rfl) (fun g _ => rfl)).2.1 Feed.plugins (by decide) (by decide)
        · intro a b c
          exact (sourceNodes_fail_main k rs
            { rs with pulls := a, integrations := b, plugins := c } rs Feed.issues hf []
            [Feed.pulls, Feed.integrations, Feed.plugins] horder hf
            (fun g hg => absurd hg (List.not_mem_nil g))
            (fun g _ => rfl)).2.2.1
        · intro l
          exact (sourceNodes_fail_main k rs rs
            { rs with issues := Except.ok l } Feed.issues hf []
            [Feed.pulls, Feed.integrations, Feed.plugins] horder hf
            (fun g _ => rfl)
            (fun g hg => absurd hg (List.not_mem_nil g))).2.2.2
    | true =>
        have horder : feedOrder k =
            [Feed.schema, Feed.issues, Feed.pulls, Feed.integrations, Feed.plugins] := by
          simp [feedOrder, hk]
        have horder2 : feedOrder k =
            [Feed.schema] ++ Feed.issues :: [Feed.pulls, Feed.integrations, Feed.plugins] :=
          horder
        refine ⟨?_, ?_, ?_, ?_, ?_, ?_⟩
        · exact (sourceNodes_fail_main k rs rs rs Feed.issues hf [Feed.schema]
            [Feed.pulls, Feed.integrations, Feed.plugins] horder2 hf
            (fun g _ => rfl) (fun g _ => rfl)).1
        · exact (sourceNodes_fail_main k rs rs rs Feed.issues hf [Feed.schema]
            [Feed.pulls, Feed.integrations, Feed.plugins] horder2 hf
            (fun g _ => rfl) (fun g _ => rfl)).2.1 Feed.pulls (by decide) (by decide)
        · exact (sourceNodes_fail_main k rs rs rs Feed.issues hf [Feed.schema]
            [Feed.pulls, Feed.integrations, Feed.plugins] horder2 hf
            (fun g _ => rfl) (fun g _ => rfl)).2.1 Feed.integrations (by decide) (by decide)
        · exact (sourceNodes_fail_main k rs rs rs Feed.issues hf [Feed.schema]
            [Feed.pulls, Feed.integrations, Feed.plugins] horder2 hf
            (fun g _ => rfl) (fun g _ => rfl)).2.1 Feed.plugins (by decide) (by decide)
        · intro a b c
          exact (sourceNodes_fail_main k rs
            { rs with pulls := a, integrations := b, plugins := c } rs Feed.issues hf
            [Feed.schema] [Feed.pulls, Feed.integrations, Feed.plugins] horder2 hf
            (by intro g hg; fin_cases hg; rfl)
            (fun g _ => rfl)).2.2.1
        · intro l
          exact (sourceNodes_fail_main k rs rs
            { rs with issues := Except.ok l } Feed.issues hf
            [Feed.schema] [Feed.pulls, Feed.integrations, Feed.plugins] horder2 hf
            (fun g _ => rfl)
            (by intro g hg; fin_cases hg; rfl)).2.2.2
  · intro h
    have hf : feedStep rs Feed.pulls = ([], true) := by
      simp [feedStep, feedOutcome, h]
    cases hk : keyPresent k with
    | false =>
        have horder : feedOrder k =
            [Feed.issues] ++ Feed.pulls :: [Feed.integrations, Feed.plugins] := by
          simp [feedOrder, hk]
        refine ⟨?_, ?_, ?_, ?_, ?_⟩
        · exact (sourceNodes_fail_main k rs rs rs Feed.pulls hf [Feed.issues]
            [Feed.integrations, Feed.plugins] horder hf
            (fun g _ => rfl) (fun g _ => rfl)).1
        · exact (sourceNodes_fail_main k rs rs rs Feed.pulls hf [Feed.issues]
            [Feed.integrations, Feed.plugins] horder hf
            (fun g _ => rfl) (fun g _ => rfl)).2.1 Feed.integrations (by decide) (by decide)
        · exact (sourceNodes_fail_main k rs rs rs Feed.pulls hf [Feed.issues]
            [Feed.integrations, Feed.plugins] horder hf
            (fun g _ => rfl) (fun g _ => rfl)).2.1 Feed.plugins (by decide) (by decide)
        · intro b c
          exact (sourceNodes_fail_main k rs
            { rs with integrations := b, plugins := c } rs Feed.pulls hf [Feed.issues]
            [Feed.integrations, Feed.plugins] horder hf
            (by intro g hg; fin_cases hg; rfl)
            (fun g _ => rfl)).2.2.1
        · intro l
          exact (sourceNodes_fail_main k rs rs
            { rs with pulls := Except.ok l } Feed.pulls hf [Feed.issues]
            [Feed.integrations, Feed.plugins] horder hf
            (fun g _ => rfl)
            (by intro g hg; fin_cases hg; rfl)).2.2.2
    | true =>
        have horder : feedOrder k =
            [Feed.schema, Feed.issues] ++ Feed.pulls :: [Feed.integrations, Feed.plugins] := by
          simp [feedOrder, hk]
        refine ⟨?_, ?_, ?_, ?_, ?_⟩
        · exact (sourceNodes_fail_main k rs rs rs Feed.pulls hf [Feed.schema, Feed.issues]
            [Feed.integrations, Feed.plugins] horder hf
            (fun g _ => rfl) (fun g _ => rfl)).1
        · exact (sourceNodes_fail_main k rs rs rs Feed.pulls hf [Feed.schema, Feed.issues]
            [Feed.integrations, Feed.plugins] horder hf
            (fun g _ => rfl) (fun g _ => rfl)).2.1 Feed.integrations (by decide) (by decide)
        · exact (sourceNodes_fail_main k rs rs rs Feed.pulls hf [Feed.schema, Feed.issues]
            [Feed.integrations, Feed.plugins] horder hf
            (fun g _ => rfl) (fun g _ => rfl)).2.1 Feed.plugins (by decide) (by decide)
        · intro b c
          exact (sourceNodes_fail_main k rs
            { rs with integrations := b, plugins := c } rs Feed.pulls hf
            [Feed.schema, Feed.issues] [Feed.integrations, Feed.plugins] horder hf
            (by intro g hg; fin_cases hg <;> rfl)
            (fun g _ => rfl)).2.2.1
        · intro l
          exact (sourceNodes_fail_main k rs rs
            { rs with pulls := Except.ok l } Feed.pulls hf
            [Feed.schema, Feed.issues] [Feed.integrations, Feed.plugins] horder hf
            (fun g _ => rfl)
            (by intro g hg; fin_cases hg <;> rfl)).2.2.2
  · intro h
    have hf : feedStep rs Feed.integrations = ([], true) := by
      simp [feedStep, feedOutcome, h]
    cases hk : keyPresent k with
    | false =>
        have horder : feedOrder k =
            [Feed.issues, Feed.pulls] ++ Feed.integrations :: [Feed.plugins] := by
          simp [feedOrder, hk]
        refine ⟨?_, ?_, ?_, ?_⟩
        · exact (sourceNodes_fail_main k rs rs rs Feed.integrations hf
            [Feed.issues, Feed.pulls] [Feed.plugins] horder hf
            (fun g _ => rfl) (fun g _ => rfl)).1
        · exact (sourceNodes_fail_main k rs rs rs Feed.integrations hf
            [Feed.issues, Feed.pulls] [Feed.plugins] horder hf
            (fun g _ => rfl) (fun g _ => rfl)).2.1 Feed.plugins (by decide) (by decide)
        · intro c
          exact (sourceNodes_fail_main k rs { rs with plugins := c } rs Feed.integrations hf
            [Feed.issues, Feed.pulls] [Feed.plugins] horder hf
            (by intro g hg; fin_cases hg <;> rfl)
            (fun g _ => rfl)).2.2.1
        · intro l
          exact (sourceNodes_fail_main k rs rs
            { rs with integrations := Except.ok l } Feed.integrations hf
            [Feed.issues, Feed.pulls] [Feed.plugins] horder hf
            (fun g _ => rfl)
            (by intro g hg; fin_cases hg <;> rfl)).2.2.2
    | true =>
        have horder : feedOrder k =
            [Feed.schema, Feed.issues, Feed.pulls] ++ Feed.integrations :: [Feed.plugins] := by
          simp [feedOrder, hk]
        refine ⟨?_, ?_, ?_, ?_⟩
        · exact (sourceNodes_fail_main k rs rs rs Feed.integrations hf
            [Feed.schema, Feed.issues, Feed.pulls] [Feed.plugins] horder hf
            (fun g _ => rfl) (fun g _ => rfl)).1
        · exact (sourceNodes_fail_main k rs rs rs Feed.integrations hf
            [Feed.schema, Feed.issues, Feed.pulls] [Feed.plugins] horder hf
            (fun g _ => rfl) (fun g _ => rfl)).2.1 Feed.plugins (by decide) (by decide)
        · intro c
          exact (sourceNodes_fail_main k rs { rs with plugins := c } rs Feed.integrations hf
            [Feed.schema, Feed.issues, Feed.pulls] [Feed.plugins] horder hf
            (by intro g hg; fin_cases hg <;> rfl)
            (fun g _ => rfl)).2.2.1
        · intro l
          exact (sourceNodes_fail_main k rs rs
            { rs with integrations := Except.ok l } Feed.integrations hf
            [Feed.schema, Feed.issues, Feed.pulls] [Feed.plugins] horder hf
            (fun g _ => rfl)
            (by intro g hg; fin_cases hg <;> rfl)).2.2.2
  · intro h
    have hf : feedStep rs Feed.plugins = ([], true) := by
      simp [feedStep, feedOutcome, h]
    cases hk : keyPresent k with
    | false =>
        have horder : feedOrder k =
            [Feed.issues, Feed.pulls, Feed.integrations] ++ Feed.plugins :: [] := by
          simp [feedOrder, hk]
        refine ⟨?_, ?_⟩
        · exact (sourceNodes_fail_main k rs rs rs Feed.plugins hf
            [Feed.issues, Feed.pulls, Feed.integrations] [] horder hf
            (fun g _ => rfl) (fun g _ => rfl)).1
        · intro l
          exact (sourceNodes_fail_main k rs rs
            { rs with plugins := Except.ok l } Feed.plugins hf
            [Feed.issues, Feed.pulls, Feed.integrations] [] horder hf
            (fun g _ => rfl)
            (by intro g hg; fin_cases hg <;> rfl)).2.2.2
    | true =>
        have horder : feedOrder k =
            [Feed.schema, Feed.issues, Feed.pulls, Feed.integrations] ++ Feed.plugins :: [] := by
          simp [feedOrder, hk]
        refine ⟨?_, ?_⟩
        · exact (sourceNodes_fail_main k rs rs rs Feed.plugins hf
            [Feed.schema, Feed.issues, Feed.pulls, Feed.integrations] [] horder hf
            (fun g _ => rfl) (fun g _ => rfl)).1
        · intro l
          exact (sourceNodes_fail_main k rs rs
            { rs with plugins := Except.ok l } Feed.plugins hf
            [Feed.schema, Feed.issues, Feed.pulls, Feed.integrations] [] horder hf
            (fun g _ => rfl)
            (by intro g hg; fin_cases hg <;> rfl)).2.2.2
  · intro hk h
    have hf : feedStep rs Feed.schema = ([], true) := by
      simp [feedStep, feedOutcome, h]
    have horder : feedOrder k =
        [] ++ Feed.schema :: [Feed.issues, Feed.pulls, Feed.integrations, Feed.plugins] := by
      simp [feedOrder, hk]
    have key : ∀ rs3 : FeedResults, rs3.schema = Except.error () →
        sourceNodes k rs3 = { requested := [Feed.schema], nodes := [], errored := true } := by
      intro rs3 h3
      rw [sourceNodes_eq_runFeeds]
      have ho3 : feedOrder k =
          [Feed.schema, Feed.issues, Feed.pulls, Feed.integrations, Feed.plugins] := by
        simp [feedOrder, hk]
      rw [ho3]
      show runFeeds rs3 [Feed.issues, Feed.pulls, Feed.integrations, Feed.plugins]
        (runStep { requested := [], nodes := [], errored := false } Feed.schema
          (feedStep rs3 Feed.schema)) =
        { requested := [Feed.schema], nodes := [], errored := true }
      rw [show feedStep rs3 Feed.schema = ([], true) from by simp [feedStep, feedOutcome, h3]]
      rw [runFeeds_of_errored rs3 _ _ (runStep_fail_errored _ _)]
      simp [runStep]
    refine ⟨key rs h, ?_, ?_⟩
    · intro a b c d
      rw [key { rs with issues := a, pulls := b, integrations := c, plugins := d } h,
        key rs h]
    · intro p
      exact (sourceNodes_fail_main k rs rs { rs with schema := Except.ok p } Feed.schema hf
        [] [Feed.issues, Feed.pulls, Feed.integrations, Feed.plugins] horder hf
        (fun g _ => rfl)
        (fun g hg => absurd hg (List.not_mem_nil g))).2.2.2

/-- Feed results failing at the pulls fetch. -/
def c2FailPulls : FeedResults :=
  { schema := Except.ok { groups := [], components := none }
    issues := Except.ok []
    pulls := Except.error ()
    integrations := Except.ok []
    plugins := Except.ok [c2Plugin] }

/-- Feed results failing at the integrations fetch. -/
def c2FailIntegrations : FeedResults :=
  { schema := Except.ok { groups := [], components := none }
    issues := Except.ok []
    pulls := Except.ok []
    integrations := Except.error ()
    plugins := Except.ok [c2Plugin] }

/-- Feed results failing at the plugins fetch. -/
def c2FailPlugins : FeedResults :=
  { schema := Except.ok { groups := [], components := none }
    issues := Except.ok []
    pulls := Except.ok []
    integrations := Except.ok []
    plugins := Except.error () }

/-- Feed results failing at the schema fetch. -/
def c2FailSchema : FeedResults :=
  { schema := Except.error ()
    issues := Except.ok []
    pulls := Except.ok []
    integrations := Except.ok []
    plugins := Except.ok [c2Plugin] }

/-- Claim C2, witness: the amended theorem evaluated at concrete feed
results failing at each of the five feeds. -/
theorem c2_witness :
    (sourceNodes none c2Fail).errored = true ∧
    Feed.plugins ∉ (sourceNodes none c2Fail).requested ∧
    ((sourceNodes none { c2Fail with issues := Except.ok [] }).nodes).take
        ((sourceNodes none c2Fail).nodes).length = (sourceNodes none c2Fail).nodes ∧
    (sourceNodes none c2FailPulls).errored = true ∧
    Feed.plugins ∉ (sourceNodes none c2FailPulls).requested ∧
    (sourceNodes none c2FailIntegrations).errored = true ∧
    Feed.plugins ∉ (sourceNodes none c2FailIntegrations).requested ∧
    (sourceNodes none c2FailPlugins).errored = true ∧
    sourceNodes (some ("key")) c2FailSchema =
      { requested := [Feed.schema], nodes := [], errored := true } := by
  obtain ⟨w1, -, -, w2, -, w3⟩ := (c2_theorem none c2Fail).1 rfl
  obtain ⟨w4, -, w5, -, -⟩ := (c2_theorem none c2FailPulls).2.1 rfl
  obtain ⟨w6, w7, -, -⟩ := (c2_theorem none c2FailIntegrations).2.2.1 rfl
  obtain ⟨w8, -⟩ := (c2_theorem none c2FailPlugins).2.2.2.1 rfl
  obtain ⟨w9, -, -⟩ := (c2_theorem (some ("key")) c2FailSchema).2.2.2.2 (by decide) rfl
  exact ⟨w1, w2, w3 [], w4, w5, w6, w7, w8, w9⟩

end PosthogSourceNodes
